import Mathlib

/-
Verification of the decision-and-automation pipeline of an automated
job-application program (source files helper.py and scrapeandapply.py).

The embedding is shallow: pure Python string operations are modelled by
structurally recursive Lean functions over character lists; every network,
browser or language-model interaction is modelled as an oracle supplied as
explicit input data (visibility of each probed control, the text returned by
the reasoning service, the scraped page contents), and the Python control
flow over those oracles is transcribed directly.  All definitions are
computable and kernel-reducible so that concrete runs can be checked with
decide / rfl.

String-model notes: Python str.strip and the regex class backslash-s are
modelled with Char.isWhitespace (space, tab, CR, LF); str.upper with
Char.toUpper.  Both agree with CPython on the ASCII data these programs
handle.  int() is modelled on ASCII digit strings with an optional sign;
the underscore-grouping and unicode-digit forms accepted by CPython are not
modelled (no claim depends on them).
-/

namespace DiceApply

/-! ## Python string primitives -/

/-- Strip ASCII whitespace from both ends of a character list
(Python str.strip). -/
def stripChars (cs : List Char) : List Char :=
  ((cs.dropWhile Char.isWhitespace).reverse.dropWhile Char.isWhitespace).reverse

/-- Python str.strip on a string. -/
def pyStrip (s : String) : String := ⟨stripChars s.data⟩

/-- Python str.upper (ASCII model). -/
def pyUpper (s : String) : String := ⟨s.data.map Char.toUpper⟩

/-- Python str.startswith. -/
def pyStartsWith (s pre : String) : Bool := List.isPrefixOf pre.data s.data

/-- Python str.replace, one scan step per unit of fuel: at each position,
if the pattern matches there the replacement is emitted and the match is
skipped, otherwise one character is copied (left to right, non-overlapping,
exactly CPython semantics for a non-empty pattern). -/
def replaceAux (pat rep : List Char) : Nat → List Char → List Char
  | 0, cs => cs
  | _ + 1, [] => []
  | fuel + 1, c :: cs =>
    if List.isPrefixOf pat (c :: cs) then
      rep ++ replaceAux pat rep fuel (List.drop pat.length (c :: cs))
    else
      c :: replaceAux pat rep fuel cs

/-- Python str.replace (callers in this program only use non-empty
patterns, for which the fuel s.data.length is sufficient). -/
def pyReplace (s pat rep : String) : String :=
  ⟨replaceAux pat.data rep.data s.data.length s.data⟩

/-- Worker for Python str.split() with no argument: split on whitespace
runs, discarding empty pieces; acc holds the current token reversed. -/
def splitWsAux : List Char → List Char → List String
  | [], acc => if acc.isEmpty then [] else [⟨acc.reverse⟩]
  | c :: cs, acc =>
    if c.isWhitespace then
      if acc.isEmpty then splitWsAux cs []
      else ⟨acc.reverse⟩ :: splitWsAux cs []
    else splitWsAux cs (c :: acc)

/-- Python str.split() with no argument. -/
def pySplitWs (s : String) : List String := splitWsAux s.data []

/-- Accumulate the value of a run of ASCII digits; none on the first
non-digit character. -/
def digitsVal (acc : Nat) : List Char → Option Nat
  | [] => some acc
  | c :: cs => if c.isDigit then digitsVal (acc * 10 + (c.toNat - 48)) cs else none

/-- Python int(s) on whitespace-free tokens: optional sign followed by at
least one ASCII digit (see the header note on the modelled grammar). -/
def pyInt? (s : String) : Option Int :=
  match s.data with
  | [] => none
  | '-' :: rest =>
    if rest.isEmpty then none else (digitsVal 0 rest).map (fun n => -(n : Int))
  | '+' :: rest =>
    if rest.isEmpty then none else (digitsVal 0 rest).map (fun n => (n : Int))
  | cs => (digitsVal 0 cs).map (fun n => (n : Int))

/-! ## Fit Classifier (helper.py) -/

/-- Outcome of the one network round trip made inside should_apply_to_job
(helper.py lines 150-160): either the chat completion succeeds and yields
message.content (None is possible, hence Option), or some exception is
raised (timeout, transport error, malformed response object, ...). -/
inductive ServiceResult where
  | ok (content : Option String)
  | error
deriving DecidableEq

/-- Embedding of helper.should_apply_to_job (helper.py lines 113-160).
Returns the boolean verdict together with the number of reasoning-service
calls performed (0 or 1).  The guard mirrors
`if not (job_title.strip() or job_description.strip()): return False`;
the success path mirrors
`(content or "").strip().upper().startswith("YES")`;
the except branch mirrors `return False`. -/
def should_apply_to_job (api_key resume_text job_title job_description : String)
    (svc : ServiceResult) : Bool × Nat :=
  if (pyStrip job_title == "") && (pyStrip job_description == "") then
    (false, 0)
  else
    match svc with
    | ServiceResult.error => (false, 1)
    | ServiceResult.ok content =>
        (pyStartsWith (pyUpper (pyStrip (content.getD ""))) "YES", 1)

/-! ## Eligibility text check (scrapeandapply.py lines 282-287) -/

/-- Case-insensitive literal match of a lowercase pattern at the head of
cs, returning the remainder on success. -/
def matchLit : List Char → List Char → Option (List Char)
  | [], cs => some cs
  | _ :: _, [] => none
  | p :: ps, c :: cs => if c.toLower == p then matchLit ps cs else none

/-- One-or-more whitespace characters at the head of cs (greedy), mirror of
the regex one-or-more whitespace class; greediness is equivalent to regex
semantics here because every following literal begins with a letter. -/
def matchWs1 : List Char → Option (List Char)
  | [] => none
  | c :: cs => if c.isWhitespace then some (cs.dropWhile Char.isWhitespace) else none

/-- Match of the regex CONTRACT_CORP_TO_CORP_TEXT (pattern contract,
whitespace, corp, whitespace, to, whitespace, corp, case-insensitive)
anchored at the head of cs. -/
def ccMatchHere (cs : List Char) : Bool :=
  (((((((matchLit "contract".data cs).bind matchWs1).bind
    (matchLit "corp".data)).bind matchWs1).bind
    (matchLit "to".data)).bind matchWs1).bind
    (matchLit "corp".data)).isSome

/-- re.search of the pattern: a match starting at any position. -/
def ccSearch : List Char → Bool
  | [] => false
  | c :: cs => ccMatchHere (c :: cs) || ccSearch cs

/-- Embedding of has_contract_corp_to_corp_in_text (scrapeandapply.py
lines 285-287): `bool(scraped_text and PATTERN.search(scraped_text))`. -/
def has_contract_corp_to_corp_in_text (scraped_text : String) : Bool :=
  !(scraped_text == "") && ccSearch scraped_text.data

/-! ## Application Automator (scrapeandapply.py lines 152-540)

The browser page is abstracted as an oracle: for each locator-strategy
block of the source, a boolean telling whether that block would produce a
visible match, and for each polled control, a boolean per poll iteration.
-/

/-- The locator-strategy blocks of find_apply_button_anywhere and
get_apply_button, in source order and named after the source comments:
Strategy 0 = data-testid probes (lines 159-171), Strategy 1 = text-based
probes, beginning with an accessible link role/name probe (lines 172-185),
Strategy 2 = accessible button role/name probe (lines 186-193),
Strategy 3 = generic button-text containment probes (lines 194-209),
hostComponent = the known apply web-component host search
(lines 219-238). -/
inductive StrategyTag where
  | testId
  | textMatch
  | roleButton
  | buttonContain
  | hostComponent
deriving DecidableEq

/-- Page oracle for the apply-button search: whether each strategy block
would yield a visible match, and whether the last-resort JS shadow-root
walk (lines 239-272) would find and click something. -/
structure FinderEnv where
  testId : Bool
  textMatch : Bool
  roleButton : Bool
  buttonContain : Bool
  hostComponent : Bool
  jsWalk : Bool
deriving DecidableEq

/-- Embedding of _find_apply_button_anywhere (scrapeandapply.py lines
157-210): the four strategy blocks are tried in source order and the first
one with a visible match wins. -/
def find_apply_button_anywhere (e : FinderEnv) : Option StrategyTag :=
  if e.testId then some StrategyTag.testId
  else if e.textMatch then some StrategyTag.textMatch
  else if e.roleButton then some StrategyTag.roleButton
  else if e.buttonContain then some StrategyTag.buttonContain
  else none

/-- Result of get_apply_button: a located element (tagged with the
strategy that found it) or the sentinel string js_clicked returned after
the JS shadow-root walk has already clicked. -/
inductive ApplyFound where
  | found (t : StrategyTag)
  | jsClicked
deriving DecidableEq

/-- Embedding of _get_apply_button (scrapeandapply.py lines 213-273):
whole-page search first, then the apply web-component hosts, then the JS
shadow-root walk. -/
def get_apply_button (e : FinderEnv) : Option ApplyFound :=
  match find_apply_button_anywhere e with
  | some t => some (ApplyFound.found t)
  | none =>
    if e.hostComponent then some (ApplyFound.found StrategyTag.hostComponent)
    else if e.jsWalk then some ApplyFound.jsClicked
    else none

/-- Modelled from the spec: the locator-strategy order CLAIMED by spec.md
section 4.5 and claim C7 (exact test-identifier attribute, then accessible
role/name match, then visible-text match, then generic button-text
containment, then a recursive search piercing isolated DOM subtrees).
Defined from the words of the spec, only for comparison with
get_apply_button; it is not part of the source embedding. -/
def spec_claimed_locator_order (e : FinderEnv) : Option ApplyFound :=
  if e.testId then some (ApplyFound.found StrategyTag.testId)
  else if e.roleButton then some (ApplyFound.found StrategyTag.roleButton)
  else if e.textMatch then some (ApplyFound.found StrategyTag.textMatch)
  else if e.buttonContain then some (ApplyFound.found StrategyTag.buttonContain)
  else if e.jsWalk then some ApplyFound.jsClicked
  else none

/-- The 25-attempt polling loop of easy_apply_on_job (lines 398-404):
attempt k consults the page oracle env k; the first attempt on which
get_apply_button succeeds wins. -/
def applyBtnSearchAux (env : Nat → FinderEnv) : Nat → Nat → Option ApplyFound
  | _, 0 => none
  | k, fuel + 1 =>
    match get_apply_button (env k) with
    | some b => some b
    | none => applyBtnSearchAux env (k + 1) fuel

/-- The bounded apply-button search: up to 25 one-second polls. -/
def applyBtnSearch (env : Nat → FinderEnv) : Option ApplyFound :=
  applyBtnSearchAux env 0 25

/-- Visibility of the five form-opened indicators probed by the
verification loop (lines 437-450): Next by role, Submit by role, Next by
span text, Submit by span text, and the file-management affordance. -/
structure FormChecks where
  nextRole : Bool
  submitRole : Bool
  nextSpan : Bool
  submitSpan : Bool
  fileRemove : Bool
deriving DecidableEq

/-- Whether any of the five indicators is visible (the inner for-loop of
lines 439-448 stops at the first visible one; with no side effects this is
the disjunction). -/
def FormChecks.anyVisible (f : FormChecks) : Bool :=
  f.nextRole || f.submitRole || f.nextSpan || f.submitSpan || f.fileRemove

/-- The page actions easy_apply_on_job can perform after the eligibility
check, in the order they appear in the source. -/
inductive ApplyAction where
  | clickApply
  | jsApplyConfirm
  | clickFirstNext
  | clickEarlySubmit
  | clickNoResumeSubmit
  | clickReplace
  | setResumeFile
  | clickUpload
  | stepClickSubmit
  | stepClickNext
deriving DecidableEq

/-- Oracle for one easy_apply_on_job run: the structural Contract Corp To
Corp marker (has_contract_corp_to_corp, lines 290-298), the apply-button
search oracle per poll attempt, the form-opened indicators per verification
poll, and the visibility of each later control. -/
structure ApplyEnv where
  hasCorpDiv : Bool
  finder : Nat → FinderEnv
  formChecks : Nat → FormChecks
  firstNextVisible : Bool
  earlySubmitVisible : Bool
  fileRemoveAppears : Bool
  noResumeSubmitVisible : Bool
  stepSubmitVisible : Nat → Bool
  stepNextVisible : Nat → Bool

/-- The final wizard step loop (lines 518-530), `for _ in range(6)`:
a visible Submit control is clicked and the flow succeeds; otherwise a
visible Next control is clicked and the loop continues; otherwise the loop
breaks and the flow fails.  k is the current iteration index, fuel the
remaining iterations. -/
def stepLoopAux (sub nxt : Nat → Bool) : Nat → Nat → Bool × List ApplyAction
  | _, 0 => (false, [])
  | k, fuel + 1 =>
    if sub k then (true, [ApplyAction.stepClickSubmit])
    else if nxt k then
      let r := stepLoopAux sub nxt (k + 1) fuel
      (r.1, ApplyAction.stepClickNext :: r.2)
    else (false, [])

/-- The step loop entered with its source iteration bound of 6. -/
def stepLoop (sub nxt : Nat → Bool) : Bool × List ApplyAction :=
  stepLoopAux sub nxt 0 6

/-- The bounded verification window (lines 436-450): whether any
form-opened indicator becomes visible within n polls. -/
def formOpenedWithin (checks : Nat → FormChecks) (n : Nat) : Bool :=
  (List.range n).any (fun k => (checks k).anyVisible)

/-- The action recorded for invoking the located apply control: a normal
click for a located element (lines 410-431), or the settle wait when the
JS walk already clicked (lines 432-433). -/
def clickActOf : ApplyFound → ApplyAction
  | ApplyFound.jsClicked => ApplyAction.jsApplyConfirm
  | ApplyFound.found _ => ApplyAction.clickApply

/-- The actions of the first-Next block (lines 455-468): one click when
some Next locator is visible, nothing otherwise. -/
def firstNextActs (visible : Bool) : List ApplyAction :=
  if visible then [ApplyAction.clickFirstNext] else []

/-- Embedding of easy_apply_on_job (scrapeandapply.py lines 382-540) from
the structural eligibility check on, as called by main with
already_on_page=True; page interactions are read from the oracle e and the
performed actions are returned alongside the submitted/failed outcome.
The nominal (exception-free) behaviour of each probe is modelled; every
exception path in the source returns False and is subsumed by the
corresponding oracle answer being false. -/
def easy_apply_on_job (e : ApplyEnv) : Bool × List ApplyAction :=
  if !e.hasCorpDiv then (false, [])
  else
    match applyBtnSearch e.finder with
    | none => (false, [])
    | some b =>
      if !formOpenedWithin e.formChecks 12 then (false, [clickActOf b])
      else if e.earlySubmitVisible then
        (true, clickActOf b :: firstNextActs e.firstNextVisible ++
          [ApplyAction.clickEarlySubmit])
      else if !e.fileRemoveAppears then
        if e.noResumeSubmitVisible then
          (true, clickActOf b :: firstNextActs e.firstNextVisible ++
            [ApplyAction.clickNoResumeSubmit])
        else (false, clickActOf b :: firstNextActs e.firstNextVisible)
      else
        ((stepLoop e.stepSubmitVisible e.stepNextVisible).1,
          clickActOf b :: firstNextActs e.firstNextVisible ++
            [ApplyAction.clickReplace, ApplyAction.setResumeFile, ApplyAction.clickUpload] ++
            (stepLoop e.stepSubmitVisible e.stepNextVisible).2)

/-! ## Processed-Link Store (scrapeandapply.py lines 54-65)

The store file is modelled as its raw character stream (a String), so the
round trip written-raw / read-line-by-line is faithful: an appended entry
containing an interior line break really splits into several stored lines.
-/

/-- A line-break character of the stored text file.  Python reads the
store with universal newlines, where LF, CR and CRLF all end a line; the
model splits at every LF or CR individually, which differs from Python
only by producing an extra empty segment inside each CRLF pair, and blank
segments are discarded by load_seen_links, so the loaded set coincides
with Python on every file. -/
def isLineBreak (c : Char) : Bool := c == '\n' || c == '\r'

/-- Split the raw character stream of the store file into line segments;
acc holds the current segment reversed.  The segment after the final
break is also produced (blank for a file ending in a break); Python file
iteration does not yield it, but the caller discards blank lines, so the
loaded set is the same. -/
def splitLinesAux : List Char → List Char → List String
  | [], acc => [⟨acc.reverse⟩]
  | c :: cs, acc =>
    if isLineBreak c then ⟨acc.reverse⟩ :: splitLinesAux cs []
    else splitLinesAux cs (c :: acc)

/-- The line segments of the store file. -/
def fileLines (file : String) : List String := splitLinesAux file.data []

/-- Embedding of load_seen_links (scrapeandapply.py lines 54-59): the
store file is read line by line; each line is stripped and blank lines
are discarded (`set(line.strip() for line in f if line.strip())`).  The
resulting list is used only through membership, matching the Python set. -/
def load_seen_links (file : String) : List String :=
  ((fileLines file).map pyStrip).filter (fun s => !(s == ""))

/-- Embedding of append_seen_link (scrapeandapply.py lines 62-65): the
raw link followed by a newline is appended to the store file, character
for character (`f.write(link + "\n")`); no quoting or escaping. -/
def append_seen_link (link : String) (file : String) : String :=
  file ++ (link ++ "\n")

/-! ## Listing Collector (scrapeandapply.py lines 69-132) -/

/-- One job-detail anchor as parsed from a result page: its text and its
href attribute (None when absent). -/
structure Anchor where
  text : String
  href : Option String

/-- A collected posting (Job Title, Job Link). -/
structure Job where
  title : String
  link : String
deriving DecidableEq

/-- The per-page anchor loop (lines 111-118): anchors with a missing or
empty href are skipped; a relative href is made absolute. -/
def anchorJobs (anchors : List Anchor) : List Job :=
  anchors.filterMap fun a =>
    match a.href with
    | none => none
    | some h =>
      if h == "" then none
      else some { title := pyStrip a.text,
                  link := if pyStartsWith h "/" then "https://www.dice.com" ++ h else h }

/-- The page loop (lines 96-121): each fetched result page contributes its
anchors in order; a page whose fetch failed or returned a non-200 status
(None) is skipped and contributes nothing. -/
def collectJobs (pages : List (Option (List Anchor))) : List Job :=
  (pages.map fun p => match p with | none => [] | some l => anchorJobs l).flatten

/-- The deduplication loop of scrape_job_listings (lines 123-130): seen is
the set of links already emitted; a job whose link was seen is dropped,
otherwise it is emitted and its link recorded. -/
def dedupAux (seen : List String) : List Job → List Job
  | [] => []
  | j :: rest =>
    if j.link ∈ seen then dedupAux seen rest
    else j :: dedupAux (j.link :: seen) rest

/-- Embedding of scrape_job_listings (lines 83-132) given the sequence of
fetched result pages: collect then deduplicate. -/
def scrape_job_listings (pages : List (Option (List Anchor))) : List Job :=
  dedupAux [] (collectJobs pages)

/-- The token list the page-count parser works on: the aria-label with the
words Page and of removed, split on whitespace, each token fed to int(). -/
def parsePageLabel (label : String) : Option (List Int) :=
  (pySplitWs (pyReplace (pyReplace label "Page" "") "of" "")).mapM pyInt?

/-- Embedding of get_total_pages (scrapeandapply.py lines 69-80).  The
input is the aria-label of the first section whose aria-label contains
Page, or none when no such section exists.  The try block succeeds exactly
when the tokens parse as a pair of integers, in which case the second is
returned; every failure (missing section, non-integer token, wrong arity)
yields 1. -/
def get_total_pages (sec : Option String) : Int :=
  match sec with
  | none => 1
  | some label =>
    match parsePageLabel label with
    | some [_, total] => total
    | _ => 1

/-- Whether a label parses into the expected pair of integers (the
condition under which the try block of get_total_pages succeeds). -/
def labelParsesToPair (label : String) : Bool :=
  match parsePageLabel label with
  | some [_, _] => true
  | _ => false

/-- Number of result pages the collector fetches for a given total_pages
value: the length of range(1, total_pages + 1) (line 96). -/
def pagesFetched (total : Int) : Nat := total.toNat

/-! ## Orchestrator (scrapeandapply.py lines 544-605) -/

/-- The terminal outcomes of one posting, named as in the spec: description
unobtainable, text-marker eligibility failure, negative classifier verdict,
automation failure inside easy_apply_on_job, successful submission. -/
inductive ApplicationOutcome where
  | Submitted
  | SkippedIneligible
  | SkippedNoFit
  | SkippedAutomationFailure
  | SkippedDescriptionUnavailable
deriving DecidableEq

/-- Oracle for processing one link: the triple returned by
scrape_job_description (title, description, full scraped text), the
reasoning-service response, and the page oracle for easy_apply_on_job. -/
structure LinkEnv where
  title : String
  desc : String
  fullText : String
  svc : ServiceResult
  applyEnv : ApplyEnv

/-- What one iteration of the per-link loop produces: its terminal
outcome, the number of reasoning-service calls it made, and the links it
appended to the Processed-Link Store. -/
structure LinkResult where
  outcome : ApplicationOutcome
  svcCalls : Nat
  appends : List String
deriving DecidableEq

/-- Embedding of the body of the per-link loop of main (scrapeandapply.py
lines 564-601): skip on empty description; then the text-content
eligibility gate; then the single classifier call; then the automation.
Every branch appends the link to the store exactly where the source calls
append_seen_link. -/
def process_link (api_key resume link : String) (env : LinkEnv) : LinkResult :=
  if env.desc == "" then
    { outcome := ApplicationOutcome.SkippedDescriptionUnavailable,
      svcCalls := 0, appends := [link] }
  else if !(has_contract_corp_to_corp_in_text env.fullText) then
    { outcome := ApplicationOutcome.SkippedIneligible,
      svcCalls := 0, appends := [link] }
  else
    match should_apply_to_job api_key resume env.title env.desc env.svc with
    | (verdict, calls) =>
      if !verdict then
        { outcome := ApplicationOutcome.SkippedNoFit,
          svcCalls := calls, appends := [link] }
      else
        { outcome := if (easy_apply_on_job env.applyEnv).1 then
              ApplicationOutcome.Submitted
            else ApplicationOutcome.SkippedAutomationFailure,
          svcCalls := calls, appends := [link] }

/-- The per-link loop of main over the new links, collecting the outcome
of each link and the concatenation of all store appends in order. -/
def mainLoop (api_key resume : String) (envOf : String → LinkEnv) :
    List String → List (String × ApplicationOutcome) × List String
  | [] => ([], [])
  | l :: rest =>
    let r := process_link api_key resume l (envOf l)
    let tail := mainLoop api_key resume envOf rest
    ((l, r.outcome) :: tail.1, r.appends ++ tail.2)

/-- The new-link computation of main (lines 547-550): collected links not
in the loaded seen set. -/
def newLinksOf (pages : List (Option (List Anchor))) (store : String) : List String :=
  ((scrape_job_listings pages).map Job.link).filter
    (fun l => !(decide (l ∈ load_seen_links store)))

/-- Embedding of main (scrapeandapply.py lines 544-605) as a function of
the fetched result pages, the per-link oracles, and the store file; it
returns the final store file and the list of (link, outcome) pairs.  When
no new links remain, main prints Nothing new and returns without touching
the store (lines 553-555). -/
def main (api_key resume : String) (envOf : String → LinkEnv)
    (pages : List (Option (List Anchor))) (store : String) :
    String × List (String × ApplicationOutcome) :=
  if (newLinksOf pages store).isEmpty then (store, [])
  else
    ((mainLoop api_key resume envOf (newLinksOf pages store)).2.foldl
        (fun s l => append_seen_link l s) store,
      (mainLoop api_key resume envOf (newLinksOf pages store)).1)

/-! ## Concrete oracles used by counterexamples and witnesses -/

/-- A page on which no locator strategy finds anything. -/
def noFinder : FinderEnv :=
  { testId := false, textMatch := false, roleButton := false,
    buttonContain := false, hostComponent := false, jsWalk := false }

/-- A poll on which no form-opened indicator is visible. -/
def noChecks : FormChecks :=
  { nextRole := false, submitRole := false, nextSpan := false,
    submitSpan := false, fileRemove := false }

/-- An apply-page oracle on which nothing is ever visible. -/
def idleApplyEnv : ApplyEnv :=
  { hasCorpDiv := false,
    finder := fun _ => noFinder,
    formChecks := fun _ => noChecks,
    firstNextVisible := false,
    earlySubmitVisible := false,
    fileRemoveAppears := false,
    noResumeSubmitVisible := false,
    stepSubmitVisible := fun _ => false,
    stepNextVisible := fun _ => false }

/-- C1 counterexample oracle: the scraped text contains the marker (the
text check passes) but the rendered page lacks the structural div
(idleApplyEnv has hasCorpDiv false), and the service raises. -/
def c1CexEnv : LinkEnv :=
  { title := "Data Scientist", desc := "desc", fullText := "Contract Corp To Corp",
    svc := ServiceResult.error, applyEnv := idleApplyEnv }

/-- C1 amended-claim witness oracle: scraped text without the marker. -/
def c1AmendEnv : LinkEnv :=
  { title := "Data Scientist", desc := "desc", fullText := "W2 only, no corp",
    svc := ServiceResult.ok (some "YES"), applyEnv := idleApplyEnv }

/-- C7 counterexample oracle: both the text block and the button-role
block would produce a visible match. -/
def c7CexEnv : FinderEnv :=
  { testId := false, textMatch := true, roleButton := true,
    buttonContain := false, hostComponent := false, jsWalk := false }

/-- C7 witness oracle: eligible page on which no strategy ever finds the
apply control. -/
def c7WitnessEnv : ApplyEnv :=
  { idleApplyEnv with hasCorpDiv := true }

/-- C8 witness oracle: eligible page, apply control found by the first
strategy on the first attempt, but no form-opened indicator ever becomes
visible. -/
def c8WitnessEnv : ApplyEnv :=
  { idleApplyEnv with
      hasCorpDiv := true,
      finder := fun _ => { noFinder with testId := true } }

/-- C5 witness pages: the same link on two pages with differing titles,
and a failed fetch in between. -/
def c5Pages : List (Option (List Anchor)) :=
  [some [{ text := "First Title", href := some "/jobA" },
         { text := "Second Title", href := some "/jobB" }],
   none,
   some [{ text := "Other Title", href := some "/jobA" }]]

/-- C4 counterexample pages: one posting whose href carries a trailing
space, which survives collection but is stripped by load_seen_links. -/
def c4Pages : List (Option (List Anchor)) :=
  [some [{ text := "Padded", href := some "jobX " }]]

/-- C4 per-link oracle: the description extraction fails, so the posting is
skipped and recorded; the run then only exercises the store round trip. -/
def c4EnvOf : String → LinkEnv :=
  fun _ => { title := "", desc := "", fullText := "", svc := ServiceResult.error,
             applyEnv := idleApplyEnv }

/-- C4 witness pages: one well-formed posting link. -/
def c4WitnessPages : List (Option (List Anchor)) :=
  [some [{ text := "Good", href := some "/goodjob" }]]

/-! ## Theorems -/

/-- Every branch of the per-link loop body appends the link to the store
exactly once. -/
theorem process_link_appends (api_key resume link : String) (env : LinkEnv) :
    (process_link api_key resume link env).appends = [link] := by
  unfold process_link
  split
  · rfl
  · split
    · rfl
    · split
      split <;> rfl

/-- C2: should_apply_to_job returns True only when the service response,
after trimming and uppercasing, begins with the exact token YES; any other
response content yields False, and an exception during the service call
(timeout or transport error included) yields False. -/
theorem c2_classifier_conservative (api_key resume_text job_title job_description : String) :
    (∀ svc, (should_apply_to_job api_key resume_text job_title job_description svc).1 = true →
        ∃ c, svc = ServiceResult.ok c ∧
          pyStartsWith (pyUpper (pyStrip (c.getD ""))) "YES" = true) ∧
    ((should_apply_to_job api_key resume_text job_title job_description
        ServiceResult.error).1 = false) ∧
    (∀ c, pyStartsWith (pyUpper (pyStrip (c.getD ""))) "YES" = false →
        (should_apply_to_job api_key resume_text job_title job_description
          (ServiceResult.ok c)).1 = false) := by
  refine ⟨?_, ?_, ?_⟩
  · intro svc h
    unfold should_apply_to_job at h
    split at h
    · simp at h
    · cases svc with
      | error => simp at h
      | ok c => exact ⟨c, rfl, h⟩
  · unfold should_apply_to_job
    split <;> rfl
  · intro c h
    unfold should_apply_to_job
    split
    · rfl
    · simpa using h

/-- Concrete application of c2_classifier_conservative: a negative response
text yields a negative verdict. -/
theorem c2_classifier_conservative_witness :
    (should_apply_to_job "key" "resume" "ML Engineer" "desc"
      (ServiceResult.ok (some "no, skip this one"))).1 = false :=
  (c2_classifier_conservative "key" "resume" "ML Engineer" "desc").2.2
    (some "no, skip this one") (by decide)

/-- C10: when both the job title and the job description are empty or
whitespace-only, should_apply_to_job returns False and performs zero
reasoning-service calls (the early return at helper.py line 121). -/
theorem c10_blank_inputs_no_call (api_key resume_text job_title job_description : String)
    (svc : ServiceResult)
    (ht : pyStrip job_title = "") (hd : pyStrip job_description = "") :
    should_apply_to_job api_key resume_text job_title job_description svc = (false, 0) := by
  unfold should_apply_to_job
  rw [ht, hd]
  simp

/-- Concrete application of c10_blank_inputs_no_call: whitespace-only title
and empty description never reach the service, even when the service would
have answered YES. -/
theorem c10_blank_inputs_witness :
    should_apply_to_job "key" "resume" "   " "" (ServiceResult.ok (some "YES")) = (false, 0) :=
  c10_blank_inputs_no_call "key" "resume" "   " "" (ServiceResult.ok (some "YES"))
    (by decide) (by decide)

/-- C1 counterexample: a posting whose rendered page FAILS the structural
marker check (has_contract_corp_to_corp is false) but whose scraped text
contains the marker still reaches the Fit Classifier: the per-link loop
makes exactly one reasoning-service call for it, not zero, because main
only consults the text-content check before the classifier and the
structural check runs later, inside easy_apply_on_job. -/
theorem c1_counterexample_classifier_called :
    c1CexEnv.applyEnv.hasCorpDiv = false ∧
    (process_link "key" "resume" "link" c1CexEnv).svcCalls = 1 ∧
    (process_link "key" "resume" "link" c1CexEnv).outcome =
      ApplicationOutcome.SkippedNoFit := by
  refine ⟨rfl, ?_, ?_⟩ <;> decide

/-- C1 as amended: for every posting processed by the per-link loop, if the
TEXT-CONTENT check for Contract Corp To Corp on the scraped page content
fails, the reasoning service is never invoked for that posting (zero
calls), and when a description was extracted the outcome is
SkippedIneligible; the structural page check is performed only inside the
automation step, after any classifier call. -/
theorem c1_text_gate_blocks_classifier (api_key resume link : String) (env : LinkEnv)
    (h : has_contract_corp_to_corp_in_text env.fullText = false) :
    (process_link api_key resume link env).svcCalls = 0 ∧
    (env.desc ≠ "" → (process_link api_key resume link env).outcome =
        ApplicationOutcome.SkippedIneligible) := by
  unfold process_link
  by_cases hd : env.desc = ""
  · simp [hd]
  · have hd' : (env.desc == "") = false := by simpa using hd
    simp [hd', h]

/-- Concrete application of c1_text_gate_blocks_classifier: a posting whose
scraped text lacks the marker is skipped as ineligible with zero service
calls, even though the service would have answered YES. -/
theorem c1_text_gate_witness :
    (process_link "key" "resume" "link" c1AmendEnv).svcCalls = 0 ∧
    (process_link "key" "resume" "link" c1AmendEnv).outcome =
      ApplicationOutcome.SkippedIneligible := by
  have h := c1_text_gate_blocks_classifier "key" "resume" "link" c1AmendEnv (by decide)
  exact ⟨h.1, h.2 (by decide)⟩

/-- The appends performed by a whole per-link loop run are exactly its
links, in order. -/
theorem mainLoop_appends (api_key resume : String) (envOf : String → LinkEnv)
    (links : List String) : (mainLoop api_key resume envOf links).2 = links := by
  induction links with
  | nil => rfl
  | cons l rest ih =>
    simp [mainLoop, process_link_appends, ih]

/-- C3: every link processed by the per-link loop is appended to the
Processed-Link Store exactly once, whatever terminal outcome the posting
reaches: the appends of a whole run are exactly the processed links in
order, and each loop body appends its own link exactly once. -/
theorem c3_link_recorded_exactly_once (api_key resume : String)
    (envOf : String → LinkEnv) (links : List String) :
    (mainLoop api_key resume envOf links).2 = links ∧
    (∀ link env, (process_link api_key resume link env).appends = [link]) :=
  ⟨mainLoop_appends api_key resume envOf links,
    fun link env => process_link_appends api_key resume link env⟩

/-- Closed-form success condition of the final wizard step loop: starting
at iteration k with the given fuel, the loop succeeds exactly when some
reachable iteration sees a visible Submit control, with every earlier
iteration seeing no Submit but a visible Next. -/
theorem stepLoopAux_true_iff (sub nxt : Nat → Bool) :
    ∀ (fuel k : Nat),
      ((stepLoopAux sub nxt k fuel).1 = true ↔
        ∃ i, i < fuel ∧ sub (k + i) = true ∧
          ∀ j, j < i → sub (k + j) = false ∧ nxt (k + j) = true) := by
  intro fuel
  induction fuel with
  | zero =>
    intro k
    simp [stepLoopAux]
  | succ n ih =>
    intro k
    unfold stepLoopAux
    by_cases hs : sub k = true
    · simp only [hs, if_true]
      constructor
      · intro _
        exact ⟨0, Nat.succ_pos n, by simpa using hs,
          fun j hj => absurd hj (Nat.not_lt_zero j)⟩
      · intro _
        trivial
    · have hs' : sub k = false := by simpa using hs
      by_cases hn : nxt k = true
      · simp only [hs', hn, Bool.false_eq_true, if_false, if_true]
        rw [ih (k + 1)]
        constructor
        · rintro ⟨i, hi, hsub, hall⟩
          refine ⟨i + 1, Nat.succ_lt_succ hi, ?_, ?_⟩
          · have he : k + (i + 1) = k + 1 + i := by omega
            rw [he]
            exact hsub
          · intro j hj
            cases j with
            | zero => exact ⟨hs', hn⟩
            | succ j' =>
              have he : k + (j' + 1) = k + 1 + j' := by omega
              rw [he]
              exact hall j' (by omega)
        · rintro ⟨i, hi, hsub, hall⟩
          cases i with
          | zero =>
            rw [Nat.add_zero] at hsub
            exact absurd hsub hs
          | succ i' =>
            refine ⟨i', by omega, ?_, ?_⟩
            · have he : k + 1 + i' = k + (i' + 1) := by omega
              rw [he]
              exact hsub
            · intro j hj
              have he : k + 1 + j = k + (j + 1) := by omega
              rw [he]
              exact hall (j + 1) (by omega)
      · have hn' : nxt k = false := by simpa using hn
        simp only [hs', hn', Bool.false_eq_true, if_false]
        constructor
        · intro hfalse
          exact absurd hfalse (by simp)
        · rintro ⟨i, hi, hsub, hall⟩
          cases i with
          | zero =>
            rw [Nat.add_zero] at hsub
            exact absurd hsub hs
          | succ i' =>
            have := (hall 0 (Nat.succ_pos i')).2
            rw [Nat.add_zero] at this
            exact absurd this (by simp [hn'])

/-- The step loop performs at most fuel Next/Submit clicks. -/
theorem stepLoopAux_length_le (sub nxt : Nat → Bool) :
    ∀ (fuel k : Nat), (stepLoopAux sub nxt k fuel).2.length ≤ fuel := by
  intro fuel
  induction fuel with
  | zero =>
    intro k
    simp [stepLoopAux]
  | succ n ih =>
    intro k
    unfold stepLoopAux
    by_cases hs : sub k = true
    · simp [hs]
    · have hs' : sub k = false := by simpa using hs
      by_cases hn : nxt k = true
      · have := ih (k + 1)
        simp only [hs', hn, Bool.false_eq_true, if_false, if_true, List.length_cons]
        omega
      · have hn' : nxt k = false := by simpa using hn
        simp [hs', hn']

/-- C9: the Application Automator always reaches a terminal outcome: for
every oracle, easy_apply_on_job yields a terminal True or False; the step
loop succeeds exactly when some iteration below the fixed bound of 6 sees
a visible Submit, every earlier iteration seeing no Submit but a visible
Next (so within one iteration a visible Submit is taken before a visible
Next); when no iteration below the bound sees a Submit the loop ends in
failure; and the loop performs at most 6 step actions. -/
theorem c9_step_loop_bounded :
    (∀ e : ApplyEnv,
      (easy_apply_on_job e).1 = true ∨ (easy_apply_on_job e).1 = false) ∧
    (∀ sub nxt : Nat → Bool,
      ((stepLoop sub nxt).1 = true ↔
        ∃ i, i < 6 ∧ sub i = true ∧ ∀ j, j < i → sub j = false ∧ nxt j = true)) ∧
    (∀ sub nxt : Nat → Bool, (∀ i, i < 6 → sub i = false) →
      (stepLoop sub nxt).1 = false) ∧
    (∀ sub nxt : Nat → Bool, (stepLoop sub nxt).2.length ≤ 6) := by
  refine ⟨?_, ?_, ?_, ?_⟩
  · intro e
    cases h : (easy_apply_on_job e).1
    · right
      rfl
    · left
      rfl
  · intro sub nxt
    have h := stepLoopAux_true_iff sub nxt 6 0
    simpa using h
  · intro sub nxt h
    cases hb : (stepLoop sub nxt).1
    · rfl
    · exfalso
      obtain ⟨i, hi, hsub, _⟩ := (stepLoopAux_true_iff sub nxt 6 0).mp hb
      rw [Nat.zero_add] at hsub
      exact absurd hsub (by simp [h i hi])
  · intro sub nxt
    exact stepLoopAux_length_le sub nxt 6 0

/-- Concrete application of c9_step_loop_bounded: with no Submit control
ever visible the step loop terminates in failure. -/
theorem c9_step_loop_bounded_witness :
    (stepLoop (fun _ => false) (fun _ => true)).1 = false :=
  c9_step_loop_bounded.2.2.1 (fun _ => false) (fun _ => true) (fun i _ => rfl)

/-- C8: once the apply control has been invoked, if no form-opened
indicator (Next or Submit control, or the file-management affordance)
becomes visible during the bounded 12-poll verification window, then
easy_apply_on_job returns the failure outcome and performs no apply-flow
action beyond the initial control invocation. -/
theorem c8_form_not_opened_fails (e : ApplyEnv)
    (hcorp : e.hasCorpDiv = true)
    (hbtn : (applyBtnSearch e.finder).isSome = true)
    (hform : ∀ k, k < 12 → (e.formChecks k).anyVisible = false) :
    (easy_apply_on_job e).1 = false ∧
      ∀ a ∈ (easy_apply_on_job e).2,
        a = ApplyAction.clickApply ∨ a = ApplyAction.jsApplyConfirm := by
  obtain ⟨b, hb⟩ := Option.isSome_iff_exists.mp hbtn
  have hopen : formOpenedWithin e.formChecks 12 = false := by
    unfold formOpenedWithin
    rw [List.any_eq_false]
    intro k hk
    rw [List.mem_range] at hk
    simp [hform k hk]
  have hrun : easy_apply_on_job e = (false, [clickActOf b]) := by
    unfold easy_apply_on_job
    rw [hcorp, hb, hopen]
    simp
  rw [hrun]
  refine ⟨rfl, ?_⟩
  intro a ha
  rw [List.mem_singleton] at ha
  subst ha
  cases b with
  | found t =>
    left
    rfl
  | jsClicked =>
    right
    rfl

/-- Concrete application of c8_form_not_opened_fails: marker present,
apply button found at once, but no indicator ever appears. -/
theorem c8_form_not_opened_witness :
    (easy_apply_on_job c8WitnessEnv).1 = false ∧
      ∀ a ∈ (easy_apply_on_job c8WitnessEnv).2,
        a = ApplyAction.clickApply ∨ a = ApplyAction.jsApplyConfirm :=
  c8_form_not_opened_fails c8WitnessEnv rfl (by decide) (fun k _ => rfl)

/-- The polling loop returns none when no attempt below the fuel bound
finds the apply control. -/
theorem applyBtnSearchAux_none (env : Nat → FinderEnv) :
    ∀ (fuel k : Nat), (∀ i, i < fuel → get_apply_button (env (k + i)) = none) →
      applyBtnSearchAux env k fuel = none := by
  intro fuel
  induction fuel with
  | zero =>
    intro k _
    rfl
  | succ n ih =>
    intro k h
    unfold applyBtnSearchAux
    have h0 : get_apply_button (env k) = none := by
      have := h 0 (Nat.succ_pos n)
      rwa [Nat.add_zero] at this
    rw [h0]
    refine ih (k + 1) (fun i hi => ?_)
    have he : k + 1 + i = k + (i + 1) := by omega
    rw [he]
    exact h (i + 1) (by omega)

/-- C7 counterexample: on a page where both the text-based block and the
accessible button role/name block would match, the code returns the
text-based match, while the order claimed by the spec (test identifier,
then role/name, then visible text, ...) would return the role/name match:
the code tries its text block BEFORE its button-role block. -/
theorem c7_locator_order_counterexample :
    get_apply_button c7CexEnv = some (ApplyFound.found StrategyTag.textMatch) ∧
    spec_claimed_locator_order c7CexEnv =
      some (ApplyFound.found StrategyTag.roleButton) ∧
    get_apply_button c7CexEnv ≠ spec_claimed_locator_order c7CexEnv := by
  refine ⟨rfl, rfl, ?_⟩
  decide

/-- C7 as amended: the apply-control search tries its locator blocks in
the order: exact test-identifier attribute, then the text-based block
(whose first probe is an accessible link role/name match), then the
accessible button role/name match, then generic button-text containment,
then the known apply web-component hosts, then the recursive JS walk that
pierces isolated (shadow) DOM subtrees; the first block with a visible
match wins, and the whole search is retried in a polling loop of at most
25 attempts, after which the posting is declared failed. -/
theorem c7_locator_order_amended :
    (∀ e : FinderEnv, e.testId = true →
        find_apply_button_anywhere e = some StrategyTag.testId) ∧
    (∀ e : FinderEnv, e.testId = false → e.textMatch = true →
        find_apply_button_anywhere e = some StrategyTag.textMatch) ∧
    (∀ e : FinderEnv, e.testId = false → e.textMatch = false → e.roleButton = true →
        find_apply_button_anywhere e = some StrategyTag.roleButton) ∧
    (∀ e : FinderEnv, e.testId = false → e.textMatch = false → e.roleButton = false →
        e.buttonContain = true →
        find_apply_button_anywhere e = some StrategyTag.buttonContain) ∧
    (∀ e : FinderEnv, find_apply_button_anywhere e = none → e.hostComponent = true →
        get_apply_button e = some (ApplyFound.found StrategyTag.hostComponent)) ∧
    (∀ e : FinderEnv, find_apply_button_anywhere e = none → e.hostComponent = false →
        e.jsWalk = true → get_apply_button e = some ApplyFound.jsClicked) ∧
    (∀ env : Nat → FinderEnv, (∀ k, k < 25 → get_apply_button (env k) = none) →
        applyBtnSearch env = none) ∧
    (∀ e : ApplyEnv, e.hasCorpDiv = true → applyBtnSearch e.finder = none →
        easy_apply_on_job e = (false, [])) := by
  refine ⟨?_, ?_, ?_, ?_, ?_, ?_, ?_, ?_⟩
  · intro e h
    unfold find_apply_button_anywhere
    simp [h]
  · intro e h1 h2
    unfold find_apply_button_anywhere
    simp [h1, h2]
  · intro e h1 h2 h3
    unfold find_apply_button_anywhere
    simp [h1, h2, h3]
  · intro e h1 h2 h3 h4
    unfold find_apply_button_anywhere
    simp [h1, h2, h3, h4]
  · intro e h1 h2
    unfold get_apply_button
    rw [h1]
    simp [h2]
  · intro e h1 h2 h3
    unfold get_apply_button
    rw [h1]
    simp [h2, h3]
  · intro env h
    unfold applyBtnSearch
    refine applyBtnSearchAux_none env 25 0 (fun i hi => ?_)
    rw [Nat.zero_add]
    exact h i hi
  · intro e hcorp hnone
    unfold easy_apply_on_job
    rw [hcorp, hnone]
    simp

/-- Concrete application of c7_locator_order_amended: when no strategy
ever finds the control within the 25-attempt window, the posting fails
with no action performed. -/
theorem c7_locator_order_witness :
    easy_apply_on_job c7WitnessEnv = (false, []) :=
  c7_locator_order_amended.2.2.2.2.2.2.2 c7WitnessEnv rfl
    (c7_locator_order_amended.2.2.2.2.2.2.1 (fun _ => noFinder) (fun k _ => rfl))

/-- Number of occurrences of a given link identity in the output of the
deduplication loop: zero when the link was pre-seeded as seen, otherwise
one when present in the input and zero when absent. -/
theorem dedupAux_countP (l : String) (js : List Job) :
    ∀ (seen : List String),
      (dedupAux seen js).countP (fun j => j.link == l) =
        if l ∈ seen then 0
        else if js.any (fun j => j.link == l) then 1 else 0 := by
  induction js with
  | nil =>
    intro seen
    simp [dedupAux]
  | cons j rest ih =>
    intro seen
    unfold dedupAux
    by_cases hj : j.link ∈ seen
    · rw [if_pos hj, ih]
      by_cases hl : l ∈ seen
      · simp [hl]
      · have hjl : (j.link == l) = false := by
          rw [beq_eq_false_iff_ne]
          intro he
          exact hl (he ▸ hj)
        simp [hl, hjl]
    · rw [if_neg hj, List.countP_cons, ih]
      by_cases hjl : j.link = l
      · subst hjl
        simp [hj]
      · have hb : (j.link == l) = false := by simpa using hjl
        have hjl' : ¬(l = j.link) := fun he => hjl he.symm
        simp [List.mem_cons, hjl', hb]

/-- The first element with a given link in the deduplicated output is the
first element with that link in the input (so the first-seen title wins),
for any link not pre-seeded as seen. -/
theorem dedupAux_find_eq (l : String) (js : List Job) :
    ∀ (seen : List String), l ∉ seen →
      (dedupAux seen js).find? (fun j => j.link == l) =
        js.find? (fun j => j.link == l) := by
  induction js with
  | nil =>
    intro seen _
    rfl
  | cons j rest ih =>
    intro seen hl
    unfold dedupAux
    by_cases hj : j.link ∈ seen
    · have hjl : (j.link == l) = false := by
        rw [beq_eq_false_iff_ne]
        intro he
        exact hl (he ▸ hj)
      rw [if_pos hj, ih seen hl, List.find?_cons, hjl]
    · rw [if_neg hj]
      by_cases hjl : j.link = l
      · have hb : (j.link == l) = true := by simp [hjl]
        rw [List.find?_cons, List.find?_cons, hb]
      · have hb : (j.link == l) = false := by simpa using hjl
        rw [List.find?_cons, List.find?_cons, hb]
        refine ih (j.link :: seen) ?_
        intro hmem
        rcases List.mem_cons.mp hmem with he | hseen
        · exact hjl he.symm
        · exact hl hseen

/-- The deduplicated output is a sublist of the input: retained elements
keep their relative order. -/
theorem dedupAux_sublist (js : List Job) :
    ∀ (seen : List String), List.Sublist (dedupAux seen js) js := by
  induction js with
  | nil =>
    intro seen
    simp [dedupAux]
  | cons j rest ih =>
    intro seen
    unfold dedupAux
    by_cases hj : j.link ∈ seen
    · rw [if_pos hj]
      exact List.Sublist.cons j (ih seen)
    · rw [if_neg hj]
      exact List.Sublist.cons₂ j (ih (j.link :: seen))

/-- C5: for every sequence of scraped result pages, the Listing Collector
returns each link identity at most once; exactly once when it occurs in
the collected input; the entry kept for a link is the first collected
occurrence (hence its title is the first-seen title even when a later page
repeats the link with a different title); and the output preserves the
input order, so links appear in order of first occurrence. -/
theorem c5_collector_dedup_first_wins (pages : List (Option (List Anchor))) :
    (∀ l, (scrape_job_listings pages).countP (fun j => j.link == l) ≤ 1) ∧
    (∀ l, (collectJobs pages).any (fun j => j.link == l) = true →
      (scrape_job_listings pages).countP (fun j => j.link == l) = 1) ∧
    (∀ l, (scrape_job_listings pages).find? (fun j => j.link == l) =
      (collectJobs pages).find? (fun j => j.link == l)) ∧
    List.Sublist (scrape_job_listings pages) (collectJobs pages) := by
  refine ⟨?_, ?_, ?_, ?_⟩
  · intro l
    unfold scrape_job_listings
    rw [dedupAux_countP l (collectJobs pages) []]
    simp only [List.not_mem_nil, if_false]
    split <;> omega
  · intro l h
    unfold scrape_job_listings
    rw [dedupAux_countP l (collectJobs pages) []]
    simp [h]
  · intro l
    unfold scrape_job_listings
    exact dedupAux_find_eq l (collectJobs pages) [] (List.not_mem_nil l)
  · unfold scrape_job_listings
    exact dedupAux_sublist (collectJobs pages) []

/-- Concrete application of c5_collector_dedup_first_wins: a link repeated
on two pages is emitted exactly once. -/
theorem c5_collector_dedup_witness :
    (scrape_job_listings c5Pages).countP
      (fun j => j.link == "https://www.dice.com/jobA") = 1 :=
  (c5_collector_dedup_first_wins c5Pages).2.1 "https://www.dice.com/jobA" (by decide)

/-- C6: get_total_pages returns 1 when the page-count indicator section is
absent from the first response, and returns 1 whenever the indicator label
does not parse into the expected pair of integers; in both situations the
Collector therefore fetches exactly one result page.  The embedding is a
total function: every exception the parsing can raise in the source is
caught by the try block, so no input makes the function fail. -/
theorem c6_total_pages_fail_open :
    get_total_pages none = 1 ∧
    (∀ label, labelParsesToPair label = false → get_total_pages (some label) = 1) ∧
    pagesFetched (get_total_pages none) = 1 ∧
    (∀ label, labelParsesToPair label = false →
      pagesFetched (get_total_pages (some label)) = 1) := by
  have key : ∀ label, labelParsesToPair label = false →
      get_total_pages (some label) = 1 := by
    intro label h
    unfold labelParsesToPair at h
    have hred : get_total_pages (some label) =
        (match parsePageLabel label with
          | some [_, total] => total
          | _ => 1) := rfl
    rw [hred]
    cases hp : parsePageLabel label with
    | none =>
      rfl
    | some ls =>
      rw [hp] at h
      rcases ls with _ | ⟨a, _ | ⟨b, _ | ⟨c, cs⟩⟩⟩
      · rfl
      · rfl
      · simp at h
      · rfl
  refine ⟨rfl, key, rfl, ?_⟩
  intro label h
  rw [key label h]
  rfl

/-- Concrete application of c6_total_pages_fail_open: a label whose tokens
are not integers yields one page. -/
theorem c6_total_pages_witness :
    get_total_pages (some "Page one of two") = 1 ∧
    pagesFetched (get_total_pages (some "Page one of two")) = 1 :=
  ⟨c6_total_pages_fail_open.2.1 "Page one of two" (by decide),
    c6_total_pages_fail_open.2.2.2 "Page one of two" (by decide)⟩

/-- Rebuilding a string from its character data is the identity. -/
theorem string_mk_data (s : String) : (⟨s.data⟩ : String) = s := rfl

/-- The empty character list rebuilds to the empty string. -/
theorem string_mk_nil : (⟨[]⟩ : String) = "" := rfl

/-- Stripping the empty string gives the empty string. -/
theorem pyStrip_empty : pyStrip "" = "" := rfl

/-- One-step equation of the line splitter on the empty stream. -/
theorem splitLinesAux_nil (acc : List Char) :
    splitLinesAux [] acc = [⟨acc.reverse⟩] := rfl

/-- One-step equation of the line splitter on a cons stream. -/
theorem splitLinesAux_cons (c : Char) (cs acc : List Char) :
    splitLinesAux (c :: cs) acc =
      if isLineBreak c then ⟨acc.reverse⟩ :: splitLinesAux cs []
      else splitLinesAux cs (c :: acc) := rfl

/-- The line splitter never returns an empty list. -/
theorem splitLinesAux_ne_nil (cs : List Char) :
    ∀ acc, splitLinesAux cs acc ≠ [] := by
  induction cs with
  | nil =>
    intro acc
    rw [splitLinesAux_nil]
    simp
  | cons c cs ih =>
    intro acc
    rw [splitLinesAux_cons]
    by_cases hc : isLineBreak c = true
    · rw [if_pos hc]
      simp
    · rw [if_neg hc]
      exact ih (c :: acc)

/-- Splitting a file that ends in a newline followed by more characters:
the lines of the first part (except its final blank segment) followed by
the lines of the rest.  This is where an appended entry can merge with or
split the surrounding file content, so it is proved, not assumed. -/
theorem splitLinesAux_append (cs : List Char) :
    ∀ (acc b : List Char), cs.getLast? = some '\n' →
      splitLinesAux (cs ++ b) acc =
        (splitLinesAux cs acc).dropLast ++ splitLinesAux b [] := by
  induction cs with
  | nil =>
    intro acc b h
    simp at h
  | cons c cs ih =>
    intro acc b h
    rcases cs with _ | ⟨c2, cs2⟩
    · have hc : c = '\n' := by simpa using h
      subst hc
      rfl
    · have h' : (c2 :: cs2).getLast? = some '\n' := by
        rwa [List.getLast?_cons_cons] at h
      by_cases hc : isLineBreak c = true
      · rw [List.cons_append, splitLinesAux_cons, if_pos hc]
        rw [splitLinesAux_cons, if_pos hc]
        rw [ih [] b h']
        obtain ⟨d, ds, hds⟩ :=
          List.exists_cons_of_ne_nil (splitLinesAux_ne_nil (c2 :: cs2) [])
        rw [hds]
        rfl
      · rw [List.cons_append, splitLinesAux_cons, if_neg hc]
        rw [splitLinesAux_cons, if_neg hc]
        exact ih (c :: acc) b h'

/-- Splitting a break-free entry followed by its newline yields exactly
one line holding the entry and the final blank segment. -/
theorem splitLinesAux_no_break (cs : List Char) :
    ∀ acc, (∀ c ∈ cs, isLineBreak c = false) →
      splitLinesAux (cs ++ ['\n']) acc = [⟨acc.reverse ++ cs⟩, ""] := by
  induction cs with
  | nil =>
    intro acc h
    rw [List.nil_append, splitLinesAux_cons,
      if_pos (show isLineBreak '\n' = true from rfl), splitLinesAux_nil]
    rw [List.append_nil, List.reverse_nil, string_mk_nil]
  | cons c cs ih =>
    intro acc h
    have hc : ¬(isLineBreak c = true) := by
      simp [h c (List.mem_cons_self c cs)]
    rw [List.cons_append, splitLinesAux_cons, if_neg hc]
    rw [ih (c :: acc) (fun x hx => h x (List.mem_cons_of_mem c hx))]
    simp [List.append_assoc]

/-- A file ending in a newline splits into its other lines and a final
blank segment. -/
theorem fileLines_eq_dropLast_concat {f : String}
    (h : f.data.getLast? = some '\n') :
    fileLines f = (fileLines f).dropLast ++ [""] := by
  have hs := splitLinesAux_append f.data [] [] h
  rw [List.append_nil, splitLinesAux_nil] at hs
  rw [List.reverse_nil, string_mk_nil] at hs
  exact hs

/-- Effect of one append_seen_link on the loaded seen set, for a file that
is empty or newline-terminated and an entry free of line breaks: the
stripped entry is added (unless blank) and nothing else changes. -/
theorem load_seen_links_append_link (f l : String)
    (hf : f.data = [] ∨ f.data.getLast? = some '\n')
    (hl : ∀ c ∈ l.data, isLineBreak c = false) :
    load_seen_links (append_seen_link l f) =
      load_seen_links f ++ (if pyStrip l == "" then [] else [pyStrip l]) := by
  have hdata : (append_seen_link l f).data = f.data ++ (l.data ++ ['\n']) := by
    simp [append_seen_link]
  rcases hf with hf | hf
  · unfold load_seen_links fileLines
    rw [hdata, hf, List.nil_append, splitLinesAux_no_break l.data [] hl]
    rw [List.reverse_nil, List.nil_append, string_mk_data, splitLinesAux_nil]
    rw [List.reverse_nil, string_mk_nil]
    cases hnl : pyStrip l == "" <;> simp [hnl, pyStrip_empty]
  · have hsplit : fileLines (append_seen_link l f) =
        (fileLines f).dropLast ++ [l, ""] := by
      unfold fileLines
      rw [hdata, splitLinesAux_append f.data [] (l.data ++ ['\n']) hf,
        splitLinesAux_no_break l.data [] hl]
      rw [List.reverse_nil, List.nil_append, string_mk_data]
    have hlast : load_seen_links f =
        (((fileLines f).dropLast.map pyStrip).filter (fun s => !(s == ""))) := by
      unfold load_seen_links
      conv_lhs => rw [fileLines_eq_dropLast_concat hf]
      simp [pyStrip_empty]
    rw [show load_seen_links (append_seen_link l f) =
        ((fileLines (append_seen_link l f)).map pyStrip).filter
          (fun s => !(s == "")) from rfl]
    rw [hsplit, List.map_append, List.filter_append, ← hlast]
    cases hnl : pyStrip l == "" <;> simp [hnl, pyStrip_empty]

/-- Effect of the whole per-run append fold on the loaded seen set: for a
store that is empty or newline-terminated and links that are nonempty,
trim-invariant and free of line breaks, the loaded set afterwards is the
loaded set before followed by exactly those links. -/
theorem load_seen_links_foldl (ls : List String) :
    ∀ (f : String), (f.data = [] ∨ f.data.getLast? = some '\n') →
      (∀ l ∈ ls, pyStrip l = l ∧ l ≠ "" ∧ ∀ c ∈ l.data, isLineBreak c = false) →
      load_seen_links (ls.foldl (fun s l => append_seen_link l s) f) =
        load_seen_links f ++ ls := by
  induction ls with
  | nil =>
    intro f _ _
    simp
  | cons l rest ih =>
    intro f hf hls
    obtain ⟨hstrip, hne, hbr⟩ := hls l (List.mem_cons_self l rest)
    rw [List.foldl_cons]
    have hf' : (append_seen_link l f).data = [] ∨
        (append_seen_link l f).data.getLast? = some '\n' := by
      right
      have hd : (append_seen_link l f).data = (f.data ++ l.data) ++ ['\n'] := by
        simp [append_seen_link]
      rw [hd, List.getLast?_concat]
    rw [ih (append_seen_link l f) hf'
      (fun x hx => hls x (List.mem_cons_of_mem l hx))]
    rw [load_seen_links_append_link f l hf hbr]
    have hnb : (pyStrip l == "") = false := by
      rw [hstrip]
      simpa using hne
    rw [hnb]
    simp [hstrip]

/-- The filter of main finds nothing new when every collected link is
already in the loaded seen set. -/
theorem newLinksOf_eq_nil (pages : List (Option (List Anchor))) (s : String)
    (h : ∀ l ∈ (scrape_job_listings pages).map Job.link,
      l ∈ load_seen_links s) :
    (newLinksOf pages s).isEmpty = true := by
  rw [List.isEmpty_iff]
  unfold newLinksOf
  rw [List.filter_eq_nil_iff]
  intro l hl
  simp [h l hl]

/-- C4 counterexample: with a collected link carrying a trailing space,
the second run with the store left exactly as the first run wrote it and
with identical listing results processes that link AGAIN (one outcome, not
zero) and grows the store: append_seen_link records the raw link while
load_seen_links strips each stored line, so the padded link is never
recognised as seen. -/
theorem c4_idempotence_counterexample :
    (main "k" "r" c4EnvOf c4Pages (main "k" "r" c4EnvOf c4Pages "").1).2.length = 1 ∧
    (main "k" "r" c4EnvOf c4Pages (main "k" "r" c4EnvOf c4Pages "").1).1 ≠
      (main "k" "r" c4EnvOf c4Pages "").1 := by
  refine ⟨?_, ?_⟩ <;> decide

/-- C4 as amended: provided every collected link is nonempty,
trim-invariant and free of interior line-break characters (as real
absolute posting URLs are), and the initial store file is empty or
newline-terminated (as every file the program itself writes is), running
the pipeline a second time with the Processed-Link Store left unchanged
from the end of the first run and with identical listing results
processes zero postings: no new outcomes are produced and the store is
unchanged.  Each proviso is forced by the raw file round trip: a padded
link is stripped on load, a link with an interior break splits into two
stored lines, and an unterminated store line merges with the first
appended link. -/
theorem c4_second_run_idempotent (api_key resume : String)
    (envOf : String → LinkEnv) (pages : List (Option (List Anchor)))
    (store : String)
    (hstore : store.data = [] ∨ store.data.getLast? = some '\n')
    (hlinks : ∀ l ∈ (scrape_job_listings pages).map Job.link,
      pyStrip l = l ∧ l ≠ "" ∧ ∀ c ∈ l.data, isLineBreak c = false) :
    main api_key resume envOf pages (main api_key resume envOf pages store).1 =
      ((main api_key resume envOf pages store).1, []) := by
  by_cases h1 : (newLinksOf pages store).isEmpty
  · have hrun1 : main api_key resume envOf pages store = (store, []) := by
      unfold main
      rw [if_pos h1]
    rw [hrun1]
    unfold main
    rw [if_pos h1]
  · have hrun1 : (main api_key resume envOf pages store).1 =
        (newLinksOf pages store).foldl (fun s l => append_seen_link l s) store := by
      unfold main
      rw [if_neg h1]
      simp only []
      rw [mainLoop_appends]
    have hload : load_seen_links
          ((newLinksOf pages store).foldl (fun s l => append_seen_link l s) store) =
        load_seen_links store ++ newLinksOf pages store := by
      refine load_seen_links_foldl (newLinksOf pages store) store hstore ?_
      intro l hl
      unfold newLinksOf at hl
      exact hlinks l (List.mem_of_mem_filter hl)
    have hseen : ∀ l ∈ (scrape_job_listings pages).map Job.link,
        l ∈ load_seen_links
          ((newLinksOf pages store).foldl (fun s l => append_seen_link l s) store) := by
      intro l hl
      rw [hload]
      by_cases hin : l ∈ load_seen_links store
      · exact List.mem_append_left _ hin
      · refine List.mem_append_right _ ?_
        unfold newLinksOf
        rw [List.mem_filter]
        exact ⟨hl, by simp [hin]⟩
    have h2 := newLinksOf_eq_nil pages
      ((newLinksOf pages store).foldl (fun s l => append_seen_link l s) store) hseen
    rw [hrun1]
    unfold main
    rw [if_pos h2]

/-- Concrete application of c4_second_run_idempotent: with a well-formed
link and an empty initial store the second run produces no outcomes and
leaves the store unchanged. -/
theorem c4_second_run_idempotent_witness :
    main "k" "r" c4EnvOf c4WitnessPages
        (main "k" "r" c4EnvOf c4WitnessPages "").1 =
      ((main "k" "r" c4EnvOf c4WitnessPages "").1, []) :=
  c4_second_run_idempotent "k" "r" c4EnvOf c4WitnessPages ""
    (Or.inl rfl) (by decide)

end DiceApply
